import Mathlib

/-!
Verification of the `append_manifests` utility (`.github/append_manifests.py`).

The script reads a YAML file, reads a content file, assigns the content
file's lines (Python `readlines` semantics) to a top-level key of the
loaded document, and rewrites the YAML file.  We embed the script as a
pure function over an explicit file-system state, parameterised by the
YAML library (`safe_load` / `dump`), and prove the specified properties.
-/

set_option autoImplicit false

/-- In-memory YAML document node as produced by a safe loader: null,
scalar, sequence or mapping (the script only uses string keys; the spec's
data model is a mapping from string keys). -/
inductive YamlNode where
  | null : YamlNode
  | scalar : String → YamlNode
  | seq : List YamlNode → YamlNode
  | map : List (String × YamlNode) → YamlNode

/-- Modelled from the spec: the YAML library (PyYAML) is external code,
not part of this repository.  This is the node space of a general
(non-safe) YAML loader: the same plain nodes, plus `constructed`, a node
produced by evaluating an arbitrary tag or a custom constructor.  A safe
loader never produces `constructed`. -/
inductive FullNode where
  | null : FullNode
  | scalar : String → FullNode
  | seq : List FullNode → FullNode
  | map : List (String × FullNode) → FullNode
  | constructed : String → String → FullNode

mutual

/-- Embedding of safe-loader nodes into the general node space. -/
def YamlNode.toFull : YamlNode → FullNode
  | .null => .null
  | .scalar s => .scalar s
  | .seq xs => .seq (toFullList xs)
  | .map m => .map (toFullMap m)

def toFullList : List YamlNode → List FullNode
  | [] => []
  | x :: xs => x.toFull :: toFullList xs

def toFullMap : List (String × YamlNode) → List (String × FullNode)
  | [] => []
  | (k, v) :: m => (k, v.toFull) :: toFullMap m

end

mutual

/-- A general node is plain when no subnode was built by evaluating a tag
or constructor. -/
def FullNode.plain : FullNode → Bool
  | .null => true
  | .scalar _ => true
  | .seq xs => plainList xs
  | .map m => plainMap m
  | .constructed _ _ => false

def plainList : List FullNode → Bool
  | [] => true
  | x :: xs => x.plain && plainList xs

def plainMap : List (String × FullNode) → Bool
  | [] => true
  | (_, v) :: m => v.plain && plainMap m

end

/-- Lookup in a document mapping (Python `dict` access, first binding). -/
def dlookup : List (String × YamlNode) → String → Option YamlNode
  | [], _ => none
  | (k', v') :: rest, k => if k' = k then some v' else dlookup rest k

/-- Python `dict` assignment `d[k] = v`: replace the value at an existing
key in place, otherwise append the new binding at the end. -/
def dictSet (d : List (String × YamlNode)) (k : String) (v : YamlNode) :
    List (String × YamlNode) :=
  match d with
  | [] => [(k, v)]
  | (k', v') :: rest =>
      if k' = k then (k, v) :: rest else (k', v') :: dictSet rest k v

/-- Universal-newline translation performed by opening a file in text
mode: both a `CR LF` pair and a lone `CR` become a single `LF`. -/
def univNewlines : List Char → List Char
  | [] => []
  | [c] => if c = '\r' then ['\n'] else [c]
  | c :: c2 :: rest =>
      if c = '\r' then
        if c2 = '\n' then '\n' :: univNewlines rest
        else '\n' :: univNewlines (c2 :: rest)
      else c :: univNewlines (c2 :: rest)

/-- Accumulator pass of Python `readlines`: split after every newline,
keeping the newline at the end of each produced line; a final segment
without a newline is kept, an empty final segment is dropped. -/
def splitLinesAux (acc : List Char) : List Char → List (List Char)
  | [] => if acc.isEmpty then [] else [acc.reverse]
  | c :: rest =>
      if c = '\n' then (acc.reverse ++ ['\n']) :: splitLinesAux [] rest
      else splitLinesAux (c :: acc) rest

/-- Python `file.readlines()` on a file opened in text mode. -/
def readlines (s : String) : List String :=
  (splitLinesAux [] (univNewlines s.data)).map (fun l => ⟨l⟩)

/-- The YAML node assigned to the target key: the sequence of content
lines, each line a scalar. -/
def linesNode (ctext : String) : YamlNode :=
  .seq ((readlines ctext).map .scalar)

/-- File-system state: an association of paths to file contents.  A path
that is absent (or unreadable) has no binding. -/
abbrev Fs := List (String × String)

/-- Read a file; `none` models a missing or unreadable path. -/
def Fs.read : Fs → String → Option String
  | [], _ => none
  | (p', c') :: rest, p => if p' = p then some c' else Fs.read rest p

/-- Open a file in write (truncating) mode and write `c` to it: replace
the contents at an existing path, otherwise create the file. -/
def Fs.write : Fs → String → String → Fs
  | [], p, c => [(p, c)]
  | (p', c') :: rest, p, c =>
      if p' = p then (p, c) :: rest else (p', c') :: Fs.write rest p c

/-- Modelled from the spec: the PyYAML functions `safe_load` and `dump`
the script calls are external library code, not in this repository.  A
library is a pair of functions, `safe_load` returning only plain
documents (`none` for a parse failure) and `dump` serializing one. -/
structure YamlLib where
  safeLoad : String → Option YamlNode
  dump : YamlNode → String

/-- Errors the script can die with: a missing or unreadable input file,
a YAML parse failure, or the `TypeError` raised by item assignment on a
loaded document that is not a mapping. -/
inductive PyError where
  | fileNotFound : String → PyError
  | parseError : PyError
  | typeError : PyError
deriving DecidableEq

/-- Outcome of one invocation: usage error (argument-count check), a
fatal uncaught exception, or success; each carries the final
file-system state. -/
inductive RunResult where
  | usage : Fs → RunResult
  | fatal : PyError → Fs → RunResult
  | ok : Fs → RunResult
deriving DecidableEq

/-- Final file-system state of an invocation. -/
def RunResult.fsOf : RunResult → Fs
  | .usage fs => fs
  | .fatal _ fs => fs
  | .ok fs => fs

/-- Process exit code: `exit(1)` on wrong argument count, 1 for an
uncaught Python exception, 0 on success. -/
def RunResult.exitCode : RunResult → Nat
  | .usage _ => 1
  | .fatal _ _ => 1
  | .ok _ => 0

/-- Whether the invocation succeeded. -/
def RunResult.isOk : RunResult → Bool
  | .ok _ => true
  | _ => false

/-- First usage line printed by the script (two adjacent string literals
in the source concatenate without a space, hence `contentfile`). -/
def usageLine1 : String :=
  "This utility gets a yaml file, a content file and a key and inserts the content from the contentfile into the yaml file at the given key"

/-- Second usage line printed by the script, describing the three
required arguments. -/
def usageLine2 : String :=
  "Missing arguments: [YAML FILE] [CONTENT FILE] [KEY TO ADD THE CONTENT AT]"

/-- Lines printed to standard output by an invocation. -/
def RunResult.stdoutLines : RunResult → List String
  | .usage _ => [usageLine1, usageLine2]
  | _ => []

/-- The body of `main` after the argument-count check, in source order:
open and parse the YAML file, open and read the content file's lines,
assign them at the key (a `TypeError` if the document is not a mapping),
then open the YAML path for writing and dump the document. -/
def runTool (lib : YamlLib) (yamlPath contentPath key : String) (fs : Fs) :
    RunResult :=
  match fs.read yamlPath with
  | none => .fatal (.fileNotFound yamlPath) fs
  | some ytext =>
      match lib.safeLoad ytext with
      | none => .fatal .parseError fs
      | some doc =>
          match fs.read contentPath with
          | none => .fatal (.fileNotFound contentPath) fs
          | some ctext =>
              match doc with
              | .map d =>
                  .ok (fs.write yamlPath
                    (lib.dump (.map (dictSet d key (linesNode ctext)))))
              | _ => .fatal .typeError fs

/-- `main`: with other than exactly four `sys.argv` entries (program name
plus three positional arguments) print the usage lines and `exit(1)`,
touching no file; otherwise run the pipeline. -/
def pyMain (lib : YamlLib) (argv : List String) (fs : Fs) : RunResult :=
  match argv with
  | [_, yamlPath, contentPath, key] => runTool lib yamlPath contentPath key fs
  | _ => .usage fs

theorem dlookup_dictSet_self (d : List (String × YamlNode)) (k : String)
    (v : YamlNode) : dlookup (dictSet d k v) k = some v := by
  induction d with
  | nil => simp [dictSet, dlookup]
  | cons hd tl ih =>
      obtain ⟨k', v'⟩ := hd
      by_cases h : k' = k
      · simp [dictSet, h, dlookup]
      · simpa [dictSet, h, dlookup] using ih

theorem dlookup_dictSet_ne (d : List (String × YamlNode)) (k q : String)
    (v : YamlNode) (h : q ≠ k) : dlookup (dictSet d k v) q = dlookup d q := by
  induction d with
  | nil => simp [dictSet, dlookup, Ne.symm h]
  | cons hd tl ih =>
      obtain ⟨k', v'⟩ := hd
      by_cases h' : k' = k
      · simp [dictSet, h', dlookup, Ne.symm h]
      · by_cases h'' : k' = q
        · simp [dictSet, h', dlookup, h'', h]
        · simpa [dictSet, h', dlookup, h''] using ih

theorem dictSet_idem (d : List (String × YamlNode)) (k : String)
    (v : YamlNode) : dictSet (dictSet d k v) k v = dictSet d k v := by
  induction d with
  | nil => simp [dictSet]
  | cons hd tl ih =>
      obtain ⟨k', v'⟩ := hd
      by_cases h : k' = k
      · simp [dictSet, h]
      · simp [dictSet, h, ih]

theorem Fs.read_write_self (fs : Fs) (p c : String) :
    Fs.read (Fs.write fs p c) p = some c := by
  induction fs with
  | nil => simp [Fs.read, Fs.write]
  | cons hd tl ih =>
      obtain ⟨p', c'⟩ := hd
      by_cases h : p' = p
      · simp [Fs.write, h, Fs.read]
      · simpa [Fs.write, h, Fs.read] using ih

theorem Fs.read_write_other (fs : Fs) (p q c : String) (h : q ≠ p) :
    Fs.read (Fs.write fs p c) q = Fs.read fs q := by
  induction fs with
  | nil => simp [Fs.read, Fs.write, Ne.symm h]
  | cons hd tl ih =>
      obtain ⟨p', c'⟩ := hd
      by_cases h' : p' = p
      · simp [Fs.write, h', Fs.read, Ne.symm h]
      · by_cases h'' : p' = q
        · simp [Fs.write, h', Fs.read, h'', h]
        · simpa [Fs.write, h', Fs.read, h''] using ih

/-- Join character lines with single newline separators (no trailing
newline): the shape of a text whose last line lacks a terminator. -/
def joinL : List (List Char) → List Char
  | [] => []
  | [l] => l
  | l :: ls => l ++ '\n' :: joinL ls

/-- String version of `joinL`. -/
def joinLines (ls : List String) : String :=
  ⟨joinL (ls.map String.data)⟩

theorem joinL_cons (l : List Char) (t : List (List Char)) (h : t ≠ []) :
    joinL (l :: t) = l ++ '\n' :: joinL t := by
  cases t with
  | nil => exact absurd rfl h
  | cons a t' => rfl

theorem mem_joinL (cls : List (List Char)) (c : Char) (hc : c ∈ joinL cls) :
    c = '\n' ∨ ∃ l ∈ cls, c ∈ l := by
  induction cls with
  | nil => simp [joinL] at hc
  | cons l t ih =>
      cases t with
      | nil =>
          simp only [joinL] at hc
          exact Or.inr ⟨l, by simp, hc⟩
      | cons a t' =>
          rw [joinL_cons l (a :: t') (by simp)] at hc
          rcases List.mem_append.mp hc with h | h
          · exact Or.inr ⟨l, by simp, h⟩
          · rcases List.mem_cons.mp h with h | h
            · exact Or.inl h
            · rcases ih h with h | ⟨l', hl', hcl'⟩
              · exact Or.inl h
              · exact Or.inr ⟨l', by simp [hl'], hcl'⟩

theorem univNewlines_no_cr (l : List Char) (h : ∀ c ∈ l, c ≠ '\r') :
    univNewlines l = l := by
  induction l with
  | nil => rfl
  | cons c rest ih =>
      cases rest with
      | nil => simp [univNewlines, h c (by simp)]
      | cons c2 rest' =>
          have hc : c ≠ '\r' := h c (by simp)
          have ht : ∀ x ∈ c2 :: rest', x ≠ '\r' := fun x hx =>
            h x (by simp [List.mem_cons.mp hx])
          simp [univNewlines, hc, ih ht]

theorem splitLinesAux_newline (l : List Char) (hl : ∀ c ∈ l, c ≠ '\n') :
    ∀ acc rest : List Char,
      splitLinesAux acc (l ++ '\n' :: rest)
        = (acc.reverse ++ (l ++ ['\n'])) :: splitLinesAux [] rest := by
  induction l with
  | nil => intro acc rest; simp [splitLinesAux]
  | cons c l ih =>
      intro acc rest
      have hc : c ≠ '\n' := hl c (by simp)
      have hl' : ∀ x ∈ l, x ≠ '\n' := fun x hx => hl x (by simp [hx])
      simp [splitLinesAux, hc, ih hl' (c :: acc) rest]

theorem splitLinesAux_no_newline (l : List Char) (hl : ∀ c ∈ l, c ≠ '\n') :
    ∀ acc : List Char, acc ≠ [] ∨ l ≠ [] →
      splitLinesAux acc l = [acc.reverse ++ l] := by
  induction l with
  | nil =>
      intro acc h
      have hacc : acc ≠ [] := by
        rcases h with h | h
        · exact h
        · exact absurd rfl h
      cases acc with
      | nil => exact absurd rfl hacc
      | cons a as => simp [splitLinesAux]
  | cons c l ih =>
      intro acc _
      have hc : c ≠ '\n' := hl c (by simp)
      have hl' : ∀ x ∈ l, x ≠ '\n' := fun x hx => hl x (by simp [hx])
      simp [splitLinesAux, hc, ih hl' (c :: acc) (Or.inl (by simp))]

theorem splitLinesAux_joinL (front : List (List Char)) (last : List Char)
    (hf : ∀ l ∈ front, ∀ c ∈ l, c ≠ '\n') (hl : ∀ c ∈ last, c ≠ '\n')
    (hne : last ≠ []) :
    splitLinesAux [] (joinL (front ++ [last]))
      = front.map (fun l => l ++ ['\n']) ++ [last] := by
  induction front with
  | nil =>
      simpa [joinL] using splitLinesAux_no_newline last hl [] (Or.inr hne)
  | cons l front ih =>
      rw [List.cons_append, joinL_cons l (front ++ [last]) (by simp)]
      rw [splitLinesAux_newline l (hf l (by simp)) [] (joinL (front ++ [last]))]
      have ih' := ih (fun x hx => hf x (by simp [hx]))
      simp [ih']

mutual

theorem plain_toFull (d : YamlNode) : (YamlNode.toFull d).plain = true := by
  cases d with
  | null => rfl
  | scalar s => rfl
  | seq xs =>
      simp only [YamlNode.toFull, FullNode.plain]
      exact plain_toFullList xs
  | map m =>
      simp only [YamlNode.toFull, FullNode.plain]
      exact plain_toFullMap m

theorem plain_toFullList (xs : List YamlNode) :
    plainList (toFullList xs) = true := by
  cases xs with
  | nil => rfl
  | cons x xs =>
      simp only [toFullList, plainList, Bool.and_eq_true]
      exact ⟨plain_toFull x, plain_toFullList xs⟩

theorem plain_toFullMap (m : List (String × YamlNode)) :
    plainMap (toFullMap m) = true := by
  cases m with
  | nil => rfl
  | cons kv m =>
      obtain ⟨k, v⟩ := kv
      simp only [toFullMap, plainMap, Bool.and_eq_true]
      exact ⟨plain_toFull v, plain_toFullMap m⟩

end

/-- Claim C3: with other than exactly three positional arguments the
program prints the usage lines to standard output, terminates with exit
code 1, and modifies no file (every path, the YAML file included, reads
back byte-for-byte the same). -/
theorem wrong_arg_count_usage (lib : YamlLib) (argv : List String) (fs : Fs)
    (h : argv.length ≠ 4) :
    pyMain lib argv fs = .usage fs
    ∧ (pyMain lib argv fs).exitCode = 1
    ∧ (pyMain lib argv fs).stdoutLines = [usageLine1, usageLine2]
    ∧ (pyMain lib argv fs).fsOf = fs := by
  have hu : pyMain lib argv fs = .usage fs := by
    rcases argv with _ | ⟨a, _ | ⟨b, _ | ⟨c, _ | ⟨d, _ | ⟨e, t⟩⟩⟩⟩⟩
    · rfl
    · rfl
    · rfl
    · rfl
    · simp at h
    · rfl
  exact ⟨hu, by rw [hu]; rfl, by rw [hu]; rfl, by rw [hu]; rfl⟩

theorem wrong_arg_count_usage_witness :
    (["prog"] : List String).length ≠ 4
    ∧ (pyMain ⟨fun _ => none, fun _ => ""⟩ ["prog"] [("m.yaml", "x")]
          = .usage [("m.yaml", "x")]
        ∧ (pyMain ⟨fun _ => none, fun _ => ""⟩ ["prog"]
            [("m.yaml", "x")]).exitCode = 1
        ∧ (pyMain ⟨fun _ => none, fun _ => ""⟩ ["prog"]
            [("m.yaml", "x")]).stdoutLines = [usageLine1, usageLine2]
        ∧ (pyMain ⟨fun _ => none, fun _ => ""⟩ ["prog"]
            [("m.yaml", "x")]).fsOf = [("m.yaml", "x")]) :=
  ⟨by decide,
   wrong_arg_count_usage ⟨fun _ => none, fun _ => ""⟩ ["prog"]
     [("m.yaml", "x")] (by decide)⟩

/-- Claim C4: a content file of `N` lines whose last line lacks a
trailing newline (text of shape `front ++ [last]` joined by single
newlines, `last` nonempty) yields exactly `N` entries under `readlines`
semantics: every entry but the last keeps its trailing newline and only
the last lacks one. -/
theorem readlines_last_no_newline (front : List String) (last : String)
    (hchars : ∀ l ∈ front ++ [last], ∀ c ∈ l.data, c ≠ '\n' ∧ c ≠ '\r')
    (hne : last ≠ "") :
    readlines (joinLines (front ++ [last]))
      = front.map (fun l => l ++ "\n") ++ [last]
    ∧ (readlines (joinLines (front ++ [last]))).length
      = front.length + 1 := by
  have hmap : (front ++ [last]).map String.data
      = front.map String.data ++ [last.data] := by simp
  have hnocr : ∀ c ∈ joinL ((front ++ [last]).map String.data),
      c ≠ '\r' := by
    intro c hc
    rcases mem_joinL _ c hc with h | ⟨l, hl, hcl⟩
    · subst h; decide
    · rcases List.mem_map.mp hl with ⟨s, hs, rfl⟩
      exact (hchars s hs c hcl).2
  have hlast : last.data ≠ [] := fun h => hne (String.ext h)
  have hsplit := splitLinesAux_joinL (front.map String.data) last.data
    (by
      intro l hl c hcl
      rcases List.mem_map.mp hl with ⟨s, hs, rfl⟩
      exact (hchars s (by simp [hs]) c hcl).1)
    (fun c hc => (hchars last (by simp) c hc).1) hlast
  have hstr : ∀ s : String, (⟨s.data ++ ['\n']⟩ : String) = s ++ "\n" :=
    fun s => rfl
  have hmain : readlines (joinLines (front ++ [last]))
      = front.map (fun l => l ++ "\n") ++ [last] := by
    show (splitLinesAux []
        (univNewlines (joinL ((front ++ [last]).map String.data)))).map
        (fun l => (⟨l⟩ : String)) = _
    rw [univNewlines_no_cr _ hnocr, hmap, hsplit]
    have hlast' : (⟨last.data⟩ : String) = last := rfl
    simp [Function.comp, hstr, hlast']
  exact ⟨hmain, by rw [hmain]; simp⟩

theorem readlines_last_no_newline_witness :
    (∀ l ∈ (["ab"] ++ ["c"] : List String), ∀ c ∈ l.data,
        c ≠ '\n' ∧ c ≠ '\r')
    ∧ ("c" : String) ≠ ""
    ∧ (readlines (joinLines (["ab"] ++ ["c"]))
        = (["ab"] : List String).map (fun l => l ++ "\n") ++ ["c"]
      ∧ (readlines (joinLines (["ab"] ++ ["c"]))).length
        = (["ab"] : List String).length + 1) :=
  ⟨by decide, by decide,
   readlines_last_no_newline ["ab"] "c" (by decide) (by decide)⟩

/-- Concrete document used by the witnesses below. -/
def wDoc : List (String × YamlNode) := [("foo", .scalar "1")]

/-- The witness document after inserting the two content lines at key
`bar`. -/
def wNew : List (String × YamlNode) := dictSet wDoc "bar" (linesNode "a\nb")

/-- A concrete library for the witnesses: the text `y` parses to `wDoc`,
every document dumps to `dumped`, and `dumped` re-parses to `wNew`. -/
def wLib : YamlLib where
  safeLoad := fun s =>
    if s = "y" then some (.map wDoc)
    else if s = "dumped" then some (.map wNew) else none
  dump := fun _ => "dumped"

/-- Concrete file system for the witnesses: a YAML file and a two-line
content file whose last line lacks a trailing newline. -/
def wFs : Fs := [("m.yaml", "y"), ("notes.txt", "a\nb")]

/-- Claim C1: a successful run (the YAML file reads and parses to a
mapping `d`, the content file reads) rewrites the YAML path with the
dump of `dictSet d k (linesNode ctext)`; re-parsing the rewritten file
(round-trip hypotheses on the library) yields a mapping `e` whose value
at the key is exactly the `readlines` sequence of the content file —
created when the key was absent, fully replaced when present, never
merged. -/
theorem run_sets_key (lib : YamlLib) (prog yp cp k : String) (fs : Fs)
    (ytext ctext : String) (d e : List (String × YamlNode))
    (hy : Fs.read fs yp = some ytext)
    (hl : lib.safeLoad ytext = some (.map d))
    (hc : Fs.read fs cp = some ctext)
    (hrt : lib.safeLoad (lib.dump (.map (dictSet d k (linesNode ctext))))
      = some (.map e))
    (hsem : ∀ q, dlookup e q = dlookup (dictSet d k (linesNode ctext)) q) :
    pyMain lib [prog, yp, cp, k] fs
      = .ok (Fs.write fs yp
          (lib.dump (.map (dictSet d k (linesNode ctext)))))
    ∧ Fs.read (pyMain lib [prog, yp, cp, k] fs).fsOf yp
      = some (lib.dump (.map (dictSet d k (linesNode ctext))))
    ∧ (Fs.read (pyMain lib [prog, yp, cp, k] fs).fsOf yp).bind lib.safeLoad
      = some (.map e)
    ∧ dlookup e k = some (linesNode ctext) := by
  have hrun : pyMain lib [prog, yp, cp, k] fs
      = .ok (Fs.write fs yp
          (lib.dump (.map (dictSet d k (linesNode ctext))))) := by
    simp [pyMain, runTool, hy, hl, hc]
  have hread : Fs.read (pyMain lib [prog, yp, cp, k] fs).fsOf yp
      = some (lib.dump (.map (dictSet d k (linesNode ctext)))) := by
    rw [hrun]
    exact Fs.read_write_self fs yp _
  refine ⟨hrun, hread, ?_, ?_⟩
  · rw [hread]
    simpa using hrt
  · rw [hsem k]
    exact dlookup_dictSet_self d k (linesNode ctext)

theorem run_sets_key_witness :
    pyMain wLib ["prog", "m.yaml", "notes.txt", "bar"] wFs
      = .ok (Fs.write wFs "m.yaml"
          (wLib.dump (.map (dictSet wDoc "bar" (linesNode "a\nb")))))
    ∧ Fs.read
        (pyMain wLib ["prog", "m.yaml", "notes.txt", "bar"] wFs).fsOf
        "m.yaml"
      = some (wLib.dump (.map (dictSet wDoc "bar" (linesNode "a\nb"))))
    ∧ (Fs.read
        (pyMain wLib ["prog", "m.yaml", "notes.txt", "bar"] wFs).fsOf
        "m.yaml").bind wLib.safeLoad = some (.map wNew)
    ∧ dlookup wNew "bar" = some (linesNode "a\nb") :=
  run_sets_key wLib "prog" "m.yaml" "notes.txt" "bar" wFs "y" "a\nb"
    wDoc wNew rfl rfl rfl rfl (fun _ => rfl)

/-- Claim C2: under the same successful run, every top-level key other
than the target maps in the re-parsed document to the value it had in
the original document — the entry at the target key is the only one
altered. -/
theorem run_preserves_other_keys (lib : YamlLib) (prog yp cp k : String)
    (fs : Fs) (ytext ctext : String) (d e : List (String × YamlNode))
    (hy : Fs.read fs yp = some ytext)
    (hl : lib.safeLoad ytext = some (.map d))
    (hc : Fs.read fs cp = some ctext)
    (hrt : lib.safeLoad (lib.dump (.map (dictSet d k (linesNode ctext))))
      = some (.map e))
    (hsem : ∀ q, dlookup e q = dlookup (dictSet d k (linesNode ctext)) q) :
    pyMain lib [prog, yp, cp, k] fs
      = .ok (Fs.write fs yp
          (lib.dump (.map (dictSet d k (linesNode ctext)))))
    ∧ ∀ q, q ≠ k → dlookup e q = dlookup d q := by
  constructor
  · simp [pyMain, runTool, hy, hl, hc]
  · intro q hq
    rw [hsem q]
    exact dlookup_dictSet_ne d k q (linesNode ctext) hq

theorem run_preserves_other_keys_witness :
    pyMain wLib ["prog", "m.yaml", "notes.txt", "bar"] wFs
      = .ok (Fs.write wFs "m.yaml"
          (wLib.dump (.map (dictSet wDoc "bar" (linesNode "a\nb")))))
    ∧ dlookup wNew "foo" = dlookup wDoc "foo" :=
  ⟨(run_preserves_other_keys wLib "prog" "m.yaml" "notes.txt" "bar" wFs
      "y" "a\nb" wDoc wNew rfl rfl rfl rfl (fun _ => rfl)).1,
   (run_preserves_other_keys wLib "prog" "m.yaml" "notes.txt" "bar" wFs
      "y" "a\nb" wDoc wNew rfl rfl rfl rfl (fun _ => rfl)).2 "foo"
     (by decide)⟩

/-- Claim C5: idempotence — rerunning with the same arguments on the
file system a successful first run produced (the content path differing
from the YAML path, so the content file is untouched) succeeds again and
deterministically overwrites: the value stored at the target key by the
second run equals the one stored by the first, with no appending or
duplication. -/
theorem run_idempotent (lib : YamlLib) (prog yp cp k : String) (fs : Fs)
    (ytext ctext : String) (d e : List (String × YamlNode))
    (hy : Fs.read fs yp = some ytext)
    (hl : lib.safeLoad ytext = some (.map d))
    (hc : Fs.read fs cp = some ctext)
    (hne : cp ≠ yp)
    (hrt : lib.safeLoad (lib.dump (.map (dictSet d k (linesNode ctext))))
      = some (.map e))
    (hsem : ∀ q, dlookup e q = dlookup (dictSet d k (linesNode ctext)) q) :
    pyMain lib [prog, yp, cp, k] fs
      = .ok (Fs.write fs yp
          (lib.dump (.map (dictSet d k (linesNode ctext)))))
    ∧ pyMain lib [prog, yp, cp, k]
        (Fs.write fs yp (lib.dump (.map (dictSet d k (linesNode ctext)))))
      = .ok (Fs.write
          (Fs.write fs yp
            (lib.dump (.map (dictSet d k (linesNode ctext)))))
          yp (lib.dump (.map (dictSet e k (linesNode ctext)))))
    ∧ dlookup (dictSet e k (linesNode ctext)) k
      = dlookup (dictSet d k (linesNode ctext)) k := by
  refine ⟨by simp [pyMain, runTool, hy, hl, hc], ?_, ?_⟩
  · have h1 : Fs.read
        (Fs.write fs yp (lib.dump (.map (dictSet d k (linesNode ctext)))))
        yp = some (lib.dump (.map (dictSet d k (linesNode ctext)))) :=
      Fs.read_write_self fs yp _
    have h2 : Fs.read
        (Fs.write fs yp (lib.dump (.map (dictSet d k (linesNode ctext)))))
        cp = some ctext := by
      rw [Fs.read_write_other fs yp cp _ hne]
      exact hc
    simp [pyMain, runTool, h1, h2, hrt]
  · rw [dlookup_dictSet_self, dlookup_dictSet_self]

theorem run_idempotent_witness :
    pyMain wLib ["prog", "m.yaml", "notes.txt", "bar"] wFs
      = .ok (Fs.write wFs "m.yaml"
          (wLib.dump (.map (dictSet wDoc "bar" (linesNode "a\nb")))))
    ∧ pyMain wLib ["prog", "m.yaml", "notes.txt", "bar"]
        (Fs.write wFs "m.yaml"
          (wLib.dump (.map (dictSet wDoc "bar" (linesNode "a\nb")))))
      = .ok (Fs.write
          (Fs.write wFs "m.yaml"
            (wLib.dump (.map (dictSet wDoc "bar" (linesNode "a\nb")))))
          "m.yaml" (wLib.dump (.map (dictSet wNew "bar" (linesNode "a\nb")))))
    ∧ dlookup (dictSet wNew "bar" (linesNode "a\nb")) "bar"
      = dlookup (dictSet wDoc "bar" (linesNode "a\nb")) "bar" :=
  run_idempotent wLib "prog" "m.yaml" "notes.txt" "bar" wFs "y" "a\nb"
    wDoc wNew rfl rfl rfl (by decide) rfl (fun _ => rfl)

/-- A concrete library whose loader returns a non-mapping document
(Python `None`, as for an empty YAML file). -/
def w6Lib : YamlLib := ⟨fun _ => some .null, fun _ => ""⟩

/-- Claim C6: well-formed YAML is not enough — when the loaded document
is not a mapping (`None` from an empty file, a scalar, or a sequence)
the key assignment raises, the run exits non-zero, and the YAML path is
not rewritten; success requires a mapping document. -/
theorem nonmapping_document_fails (lib : YamlLib) (prog yp cp k : String)
    (fs : Fs) (ytext ctext : String) (doc : YamlNode)
    (hy : Fs.read fs yp = some ytext)
    (hl : lib.safeLoad ytext = some doc)
    (hc : Fs.read fs cp = some ctext)
    (hnm : ∀ m, doc ≠ .map m) :
    pyMain lib [prog, yp, cp, k] fs = .fatal .typeError fs
    ∧ (pyMain lib [prog, yp, cp, k] fs).exitCode ≠ 0
    ∧ (pyMain lib [prog, yp, cp, k] fs).fsOf = fs := by
  have hrun : pyMain lib [prog, yp, cp, k] fs = .fatal .typeError fs := by
    cases doc with
    | map m => exact absurd rfl (hnm m)
    | null => simp [pyMain, runTool, hy, hl, hc]
    | scalar s => simp [pyMain, runTool, hy, hl, hc]
    | seq xs => simp [pyMain, runTool, hy, hl, hc]
  refine ⟨hrun, ?_, ?_⟩
  · rw [hrun]
    simp [RunResult.exitCode]
  · rw [hrun]
    rfl

theorem nonmapping_document_fails_witness :
    pyMain w6Lib ["prog", "m.yaml", "notes.txt", "bar"] wFs
      = .fatal .typeError wFs
    ∧ (pyMain w6Lib ["prog", "m.yaml", "notes.txt", "bar"] wFs).exitCode
      ≠ 0
    ∧ (pyMain w6Lib ["prog", "m.yaml", "notes.txt", "bar"] wFs).fsOf
      = wFs :=
  nonmapping_document_fails w6Lib "prog" "m.yaml" "notes.txt" "bar" wFs
    "y" "a\nb" .null rfl rfl rfl (fun m h => YamlNode.noConfusion h)

theorem runTool_fail_fsOf (lib : YamlLib) (yp cp k : String) (fs : Fs)
    (h : (runTool lib yp cp k fs).isOk = false) :
    (runTool lib yp cp k fs).fsOf = fs := by
  cases hy : Fs.read fs yp with
  | none => simp [runTool, hy, RunResult.fsOf]
  | some ytext =>
      cases hl : lib.safeLoad ytext with
      | none => simp [runTool, hy, hl, RunResult.fsOf]
      | some doc =>
          cases hc : Fs.read fs cp with
          | none => simp [runTool, hy, hl, hc, RunResult.fsOf]
          | some ctext =>
              cases doc with
              | map d => simp [runTool, hy, hl, hc, RunResult.isOk] at h
              | null => simp [runTool, hy, hl, hc, RunResult.fsOf]
              | scalar s => simp [runTool, hy, hl, hc, RunResult.fsOf]
              | seq xs => simp [runTool, hy, hl, hc, RunResult.fsOf]

/-- Claim C7: every failing invocation fails before the YAML path is
opened for writing — wrong arguments, a missing or unreadable input
path, invalid YAML, or a non-mapping document — and leaves the whole
file system, the YAML path included, byte-for-byte unmodified; the
write happens only after both reads and the assignment succeed. -/
theorem failure_leaves_fs_unmodified (lib : YamlLib) (argv : List String)
    (fs : Fs) (h : (pyMain lib argv fs).isOk = false) :
    (pyMain lib argv fs).fsOf = fs := by
  rcases argv with _ | ⟨a, _ | ⟨b, _ | ⟨c, _ | ⟨d, _ | ⟨e, t⟩⟩⟩⟩⟩
  · rfl
  · rfl
  · rfl
  · rfl
  · exact runTool_fail_fsOf lib b c d fs h
  · rfl

theorem failure_leaves_fs_unmodified_witness :
    (pyMain w6Lib ["prog", "absent.yaml", "notes.txt", "bar"] wFs).isOk
      = false
    ∧ (pyMain w6Lib ["prog", "absent.yaml", "notes.txt", "bar"] wFs).fsOf
      = wFs :=
  ⟨rfl,
   failure_leaves_fs_unmodified w6Lib
     ["prog", "absent.yaml", "notes.txt", "bar"] wFs rfl⟩

/-- A concrete library whose loader rejects every text, and a file
system holding only a YAML file with unparsable contents. -/
def wBadLib : YamlLib := ⟨fun _ => none, fun _ => ""⟩

/-- File system for the parse-failure witnesses: the YAML path exists
with invalid contents and the content path is missing. -/
def wBadFs : Fs := [("m.yaml", "not valid yaml")]

/-- Claim C8: when the YAML file's text is not valid YAML the parse
error is not recovered: the run dies with the parse failure and a
non-zero exit. -/
theorem invalid_yaml_fatal (lib : YamlLib) (prog yp cp k : String)
    (fs : Fs) (ytext : String)
    (hy : Fs.read fs yp = some ytext)
    (hl : lib.safeLoad ytext = none) :
    pyMain lib [prog, yp, cp, k] fs = .fatal .parseError fs
    ∧ (pyMain lib [prog, yp, cp, k] fs).exitCode ≠ 0 := by
  have hrun : pyMain lib [prog, yp, cp, k] fs = .fatal .parseError fs := by
    simp [pyMain, runTool, hy, hl]
  refine ⟨hrun, ?_⟩
  rw [hrun]
  simp [RunResult.exitCode]

theorem invalid_yaml_fatal_witness :
    pyMain wBadLib ["prog", "m.yaml", "notes.txt", "bar"] wBadFs
      = .fatal .parseError wBadFs
    ∧ (pyMain wBadLib
        ["prog", "m.yaml", "notes.txt", "bar"] wBadFs).exitCode ≠ 0 :=
  invalid_yaml_fatal wBadLib "prog" "m.yaml" "notes.txt" "bar" wBadFs
    "not valid yaml" rfl rfl

/-- Claim C9 counterexample: the YAML path exists but holds invalid
YAML while the content path is missing; the run fails with the parse
error, not with a not-found error, although `content_path` does not
exist — refuting the claim that every such invocation fails with a
not-found error. -/
theorem notfound_error_counterexample :
    Fs.read wBadFs "notes.txt" = none
    ∧ pyMain wBadLib ["prog", "m.yaml", "notes.txt", "bar"] wBadFs
      = .fatal .parseError wBadFs
    ∧ pyMain wBadLib ["prog", "m.yaml", "notes.txt", "bar"] wBadFs
      ≠ .fatal (.fileNotFound "m.yaml") wBadFs
    ∧ pyMain wBadLib ["prog", "m.yaml", "notes.txt", "bar"] wBadFs
      ≠ .fatal (.fileNotFound "notes.txt") wBadFs := by
  refine ⟨rfl, rfl, ?_, ?_⟩ <;> decide

/-- Claim C9 (amended): with exactly three arguments, when the YAML
path is missing or unreadable — or when it reads and parses and the
content path is missing or unreadable — the run fails, unrecovered,
with the not-found error for that path and exit code 1.  (When the YAML
path is readable but its text is invalid YAML, a parse error is raised
before the content path is opened, so the failure is a parse error even
if the content path is also missing.) -/
theorem missing_input_notfound (lib : YamlLib) (prog yp cp k : String)
    (fs : Fs)
    (h : Fs.read fs yp = none
      ∨ ∃ ytext doc, Fs.read fs yp = some ytext
          ∧ lib.safeLoad ytext = some doc ∧ Fs.read fs cp = none) :
    (pyMain lib [prog, yp, cp, k] fs = .fatal (.fileNotFound yp) fs
      ∨ pyMain lib [prog, yp, cp, k] fs = .fatal (.fileNotFound cp) fs)
    ∧ (pyMain lib [prog, yp, cp, k] fs).exitCode = 1 := by
  rcases h with h | ⟨ytext, doc, hy, hl, hc⟩
  · have hrun : pyMain lib [prog, yp, cp, k] fs
        = .fatal (.fileNotFound yp) fs := by
      simp [pyMain, runTool, h]
    exact ⟨Or.inl hrun, by rw [hrun]; rfl⟩
  · have hrun : pyMain lib [prog, yp, cp, k] fs
        = .fatal (.fileNotFound cp) fs := by
      simp [pyMain, runTool, hy, hl, hc]
    exact ⟨Or.inr hrun, by rw [hrun]; rfl⟩

theorem missing_input_notfound_witness :
    (Fs.read ([] : Fs) "m.yaml" = none
      ∨ ∃ ytext doc, Fs.read ([] : Fs) "m.yaml" = some ytext
          ∧ wBadLib.safeLoad ytext = some doc
          ∧ Fs.read ([] : Fs) "notes.txt" = none)
    ∧ ((pyMain wBadLib ["prog", "m.yaml", "notes.txt", "bar"] []
          = .fatal (.fileNotFound "m.yaml") []
        ∨ pyMain wBadLib ["prog", "m.yaml", "notes.txt", "bar"] []
          = .fatal (.fileNotFound "notes.txt") [])
      ∧ (pyMain wBadLib
          ["prog", "m.yaml", "notes.txt", "bar"] []).exitCode = 1) :=
  ⟨Or.inl rfl,
   missing_input_notfound wBadLib "prog" "m.yaml" "notes.txt" "bar" []
     (Or.inl rfl)⟩

/-- Claim C10: the script parses with the safe loader, and every
document any library in this model can return lies in the plain
fragment of the general node space: no node arises from evaluating an
arbitrary tag or executing a constructor — only null, plain scalars,
sequences and mappings. -/
theorem safe_load_only_plain (lib : YamlLib) (s : String) (d : YamlNode)
    (h : lib.safeLoad s = some d) : (YamlNode.toFull d).plain = true :=
  plain_toFull d

theorem safe_load_only_plain_witness :
    w6Lib.safeLoad "" = some .null
    ∧ (YamlNode.toFull .null).plain = true :=
  ⟨rfl, safe_load_only_plain w6Lib "" .null rfl⟩
